import Mathlib

/-!
Verification development for the community follow-up booking model
(examples/ex_5_community_follow_up/model_classes.py).

The development shallowly embeds the diary data model, the three booker
strategies, the patient referral pathway, the warm-up retention check of
the arrivals generator and the Scenario diary construction. Python/numpy
details that matter are modelled explicitly:

* dtypes. Scenario.create_carve_out casts its template to np.uint8 and
  Scenario.create_bookings allocates np.uint8 zeros, so entries of the
  carve-out and bookings matrices live in [0, 256) and in-place updates
  wrap modulo 256. Scenario.create_slots computes
  capacity_template - priority_template, an int64 DataFrame minus a uint8
  DataFrame; numpy promotes this to int64, so the available matrix holds
  signed integers, modelled as Int.
* random.randint. The clinician tie-break in the pooled find_slot methods
  draws from the module-global random stream of the Python random module.
  No random.seed call exists anywhere in the repository sources, so this
  stream is not derived from the Scenario seed vector. The draw is
  modelled as an explicit argument.
* numpy indexing with a None mask. When find_slot is called without
  limit_clinic_choice, the code runs clinic_options[None], and numpy
  treats None as a new axis, turning the index into a 2-d array. The
  subsequent sum(axis=1) then collapses the inserted singleton axis, not
  the clinician axis, and np.where on the resulting 2-d boolean array
  yields as first coordinate the first day on which ANY eligible
  clinician has a positive entry. With a boolean list mask the index
  stays 1-d and the same code computes the first day whose row SUM is
  positive. Both behaviours are embedded faithfully.
-/

namespace SimVis

/-! ### Module-level constants, model_classes.py lines 34 to 69. -/

/-- Line 34 of model_classes.py. -/
def ANNUAL_DEMAND : Nat := 1500

/-- Line 35 of model_classes.py. -/
def LOW_PRIORITY_MIN_WAIT : Nat := 7

/-- Line 36 of model_classes.py. The value in the source is 2. -/
def HIGH_PRIORITY_MIN_WAIT : Nat := 2

/-- Line 59 of model_classes.py. -/
def LOW_INTENSITY_FOLLOW_UP_TARGET_INTERVAL : Nat := 14

/-- Line 60 of model_classes.py. -/
def HIGH_INTENSITY_FOLLOW_UP_TARGET_INTERVAL : Nat := 7

/-- Line 63 of model_classes.py. -/
def TARGET_HIGH : Nat := 5

/-- Line 64 of model_classes.py. -/
def TARGET_LOW : Nat := 20

/-- Line 69 of model_classes.py, written 4*7 in the source. -/
def BOOKING_TIME_THRESHOLD : Nat := 4 * 7

/-! ### Day-by-clinician matrices.

The diaries are day-indexed matrices, modelled as lists of rows. Reads
outside the stored range return 0 and writes outside it are no-ops; in
the source such accesses raise, and every theorem below that depends on
a written cell carries the corresponding in-range hypothesis. -/

/-- Read entry (d, c) of an Int matrix (int64 data). -/
def getI (m : List (List Int)) (d c : Nat) : Int :=
  (m.getD d []).getD c 0

/-- Read entry (d, c) of a Nat matrix (uint8 data). -/
def getN (m : List (List Nat)) (d c : Nat) : Nat :=
  (m.getD d []).getD c 0

/-- Update entry (d, c) of an Int matrix in place. -/
def upd2I (m : List (List Int)) (d c : Nat) (f : Int → Int) : List (List Int) :=
  m.set d ((m.getD d []).set c (f (getI m d c)))

/-- Update entry (d, c) of a Nat matrix in place. -/
def upd2N (m : List (List Nat)) (d c : Nat) (f : Nat → Nat) : List (List Nat) :=
  m.set d ((m.getD d []).set c (f (getN m d c)))

/-- Cell (d, c) exists in the stored matrix. -/
def inRange {α : Type} (m : List (List α)) (d c : Nat) : Prop :=
  d < m.length ∧ c < (m.getD d []).length

instance {α : Type} (m : List (List α)) (d c : Nat) : Decidable (inRange m d c) := by
  unfold inRange; infer_instance

/-- The three booking diaries owned by a Scenario: available_slots is
int64 (see the header note on dtype promotion), carve_out_slots and
bookings are uint8. -/
structure Diary where
  available : List (List Int)
  carve_out : List (List Nat)
  bookings : List (List Nat)
deriving DecidableEq, Repr

/-! ### book_slot methods, model_classes.py lines 315 to 334, 407 to 430
and 477 to 493. -/

/-- LowPriorityPooledBooker.book_slot, lines 315 to 334: decrement
available_slots at (booking_t, clinic_id) and increment bookings there.
The bookings matrix is uint8, so the increment wraps modulo 256; the
available matrix is int64, so its decrement is exact. -/
def LowPriorityPooledBooker.book_slot (dia : Diary) (booking_t clinic_id : Nat) : Diary :=
  { dia with
    available := upd2I dia.available booking_t clinic_id (fun v => v - 1)
    bookings := upd2N dia.bookings booking_t clinic_id (fun v => (v + 1) % 256) }

/-- HighPriorityPooledBooker.book_slot, lines 407 to 430: take a
carve-out slot first when one is positive, else a public slot, then
increment bookings. The source increments bookings after the branch;
since neither branch touches bookings, the increment is placed inside
both branches here, which yields the identical diary. The carve-out
decrement only happens under the positivity guard, so the uint8 value
v - 1 never wraps. -/
def HighPriorityPooledBooker.book_slot (dia : Diary) (booking_t clinic_id : Nat) : Diary :=
  if 0 < getN dia.carve_out booking_t clinic_id then
    { dia with
      carve_out := upd2N dia.carve_out booking_t clinic_id (fun v => v - 1)
      bookings := upd2N dia.bookings booking_t clinic_id (fun v => (v + 1) % 256) }
  else
    { dia with
      available := upd2I dia.available booking_t clinic_id (fun v => v - 1)
      bookings := upd2N dia.bookings booking_t clinic_id (fun v => (v + 1) % 256) }

/-- RepeatBooker.book_slot, lines 477 to 493: same body as the low
priority case at the bound clinic. -/
def RepeatBooker.book_slot (dia : Diary) (booking_t clinic_id : Nat) : Diary :=
  { dia with
    available := upd2I dia.available booking_t clinic_id (fun v => v - 1)
    bookings := upd2N dia.bookings booking_t clinic_id (fun v => (v + 1) % 256) }

/-! ### find_slot methods. -/

/-- Least i < n satisfying p, or none. This is the semantics both of
np.where(cond)[0][0] (which raises when no index exists, modelled by
none) and, composed with getD 0, of np.argmax(cond) on a boolean array
(which returns 0 when no index exists). -/
def findFirst (p : Nat → Bool) : Nat → Option Nat
  | 0 => none
  | n + 1 =>
    match findFirst p n with
    | some r => some r
    | none => if p n then some n else none

/-- Lines 292 and 380: np.where(pooling_np[clinic_id] == 1)[0], the
indices of the clinics pooled with the home clinic. The pool argument is
pooling_np, the pooling table with its label column already dropped. -/
def poolOptions (pool : List (List Nat)) (clinic_id : Nat) : List Nat :=
  (List.range (pool.getD clinic_id []).length).filter
    (fun j => (pool.getD clinic_id []).getD j 0 == 1)

/-- Boolean-mask selection clinic_options[limit_clinic_choice] for a
list mask, lines 294 and 382; positional, as in numpy. -/
def maskFilter (opts : List Nat) (mask : List Bool) : List Nat :=
  ((opts.zip mask).filter (fun pr => pr.2)).map (fun pr => pr.1)

/-- Lines 294 and 382: the eligible clinician list after the optional
mask. A none mask leaves clinic_options itself (the numpy None-indexing
effect on the later day search is captured in the good-day predicates
below). -/
def bookerOpts (pool : List (List Nat)) (clinic_id : Nat) (limit : Option (List Bool)) : List Nat :=
  match limit with
  | none => poolOptions pool clinic_id
  | some mask => maskFilter (poolOptions pool clinic_id) mask

/-- Combined slots available + carve_out at one cell, line 389; int64 +
uint8 promotes to int64. -/
def combinedAt (dia : Diary) (d j : Nat) : Int :=
  getI dia.available d j + (getN dia.carve_out d j : Int)

/-- Day predicate of LowPriorityPooledBooker.find_slot at absolute day
d, line 300. With a None mask the numpy newaxis effect makes
np.where report the first day on which any eligible clinician has a
positive available entry; with a list mask it reports the first day with
a positive row sum. -/
def lowGoodDay (dia : Diary) (opts : List Nat) (limit : Option (List Bool)) (d : Nat) : Bool :=
  match limit with
  | none => opts.any (fun j => decide (0 < getI dia.available d j))
  | some _ => decide (0 < (opts.map (fun j => getI dia.available d j)).sum)

/-- Day predicate of HighPriorityPooledBooker.find_slot at absolute day
d, line 392, over available + carve_out. -/
def highGoodDay (dia : Diary) (opts : List Nat) (limit : Option (List Bool)) (d : Nat) : Bool :=
  match limit with
  | none => opts.any (fun j => decide (0 < combinedAt dia d j))
  | some _ => decide (0 < (opts.map (fun j => combinedAt dia d j)).sum)

/-- Lines 307 to 309 and 399 to 401: among the eligible clinicians whose
value at the chosen day is positive, pick one with the tie-break draw
from the module-global random stream. random.randint(0, len - 1) yields
an arbitrary index below the count depending on that unseeded global
state; the draw argument selects the index draw % count. -/
def choosePositive (opts : List Nat) (val : Nat → Int) (draw : Nat) : Nat :=
  let ps := opts.filter (fun j => decide (0 < val j))
  ps.getD (draw % ps.length) 0

/-- LowPriorityPooledBooker.find_slot, lines 255 to 312. min_wait is
passed explicitly because PatientReferral.execute mutates it around the
anti-leapfrog day. Returns none when the forward window has no good day,
modelling the IndexError of np.where(...)[0][0] on an empty result. The
returned day is best_t + min_wait + t as on line 312. -/
def LowPriorityPooledBooker.find_slot (dia : Diary) (pool : List (List Nat))
    (min_wait t clinic_id : Nat) (limit : Option (List Bool)) (draw : Nat) :
    Option (Nat × Nat) :=
  match findFirst
      (fun d => lowGoodDay dia (bookerOpts pool clinic_id limit) limit (t + min_wait + d))
      (dia.available.length - (t + min_wait)) with
  | none => none
  | some rel =>
    some (rel + min_wait + t,
      choosePositive (bookerOpts pool clinic_id limit)
        (fun j => getI dia.available (t + min_wait + rel) j) draw)

/-- Line 345: the high priority booker sets self.min_wait = 1 in its
constructor; the module constant HIGH_PRIORITY_MIN_WAIT (= 2) is not
used there. -/
def HighPriorityPooledBooker.min_wait : Nat := 1

/-- HighPriorityPooledBooker.find_slot, lines 349 to 404, over
available + carve_out. -/
def HighPriorityPooledBooker.find_slot (dia : Diary) (pool : List (List Nat))
    (t clinic_id : Nat) (limit : Option (List Bool)) (draw : Nat) :
    Option (Nat × Nat) :=
  match findFirst
      (fun d => highGoodDay dia (bookerOpts pool clinic_id limit) limit
        (t + HighPriorityPooledBooker.min_wait + d))
      (dia.available.length - (t + HighPriorityPooledBooker.min_wait)) with
  | none => none
  | some rel =>
    some (rel + HighPriorityPooledBooker.min_wait + t,
      choosePositive (bookerOpts pool clinic_id limit)
        (fun j => combinedAt dia (t + HighPriorityPooledBooker.min_wait + rel) j) draw)

/-- RepeatBooker.find_slot, lines 450 to 474: np.argmax(slots > 0) over
the forward window of the bound clinic column, which is 0 when no entry
is positive, then best_t + min_wait + t. Total: it silently returns the
window start day when the window is exhausted. -/
def RepeatBooker.find_slot (dia : Diary) (min_wait t clinic_id : Nat) : Nat × Nat :=
  let bestRel :=
    (findFirst (fun d => decide (0 < getI dia.available (t + min_wait + d) clinic_id))
      (dia.available.length - (t + min_wait))).getD 0
  (bestRel + min_wait + t, clinic_id)

/-! ### Event log records, PatientReferral.execute lines 532 to 836. -/

/-- Values of the event field of log records. -/
inductive EventName where
  | arrival
  | waiting_appointment_to_be_scheduled
  | appointment_booked_waiting
  | have_appointment
  | follow_up_appointment_booked_waiting
  | referred_out
  | depart
deriving DecidableEq, Repr

/-- Values of the type field of have_appointment records. -/
inductive ApptKind where
  | assessment
  | followUp
deriving DecidableEq, Repr

/-- One event log record. pathway carries the priority, time the virtual
day (always an integer in this model: every timeout is by a whole number
of days). Fields that a given record does not set stay none. The string
patient identifier, the event_type tag and the intensity label are
omitted: they are constant per pathway and carry no information used by
the claims. -/
structure Event where
  pathway : Nat
  ev : EventName
  home_clinic : Nat
  booked_clinic : Option Nat := none
  time : Nat
  wait : Option Nat := none
  kind : Option ApptKind := none
  fu_idx : Option Nat := none
  fu_total : Option Nat := none
  interval : Option Nat := none
deriving DecidableEq, Repr

/-- The follow-up loop, lines 764 to 807: n remaining appointments with
a RepeatBooker bound to clinic. Each iteration finds a slot from the
current virtual time now, books it, logs the booking and (after the
timeout to the booked day) the appointment. Returns the events, the
final diary and the final virtual time. -/
def followUpLoop (prio home clinic min_wait total : Nat) :
    Nat → Diary → Nat → List Event × Diary × Nat
  | 0, dia, now => ([], dia, now)
  | n + 1, dia, now =>
    let bt := (RepeatBooker.find_slot dia min_wait now clinic).1
    let dia1 := RepeatBooker.book_slot dia bt clinic
    let i := total - (n + 1)
    let e1 : Event :=
      { pathway := prio, ev := EventName.follow_up_appointment_booked_waiting,
        home_clinic := home, booked_clinic := some clinic, time := now,
        fu_idx := some i, fu_total := some total }
    let e2 : Event :=
      { pathway := prio, ev := EventName.have_appointment, home_clinic := home,
        booked_clinic := some clinic, time := bt, kind := some ApptKind.followUp,
        fu_idx := some i, fu_total := some total, interval := some (bt - now) }
    let rest := followUpLoop prio home clinic min_wait total n dia1 bt
    (e1 :: e2 :: rest.1, rest.2)

/-- PatientReferral.execute for a priority 2 patient, lines 532 to 836.
The pathway starts at virtual time t0 = referral_t. followUp, intensity
and numAppts stand for the values sampled from the seeded distribution
streams; draw is the unseeded global tie-break draw. Returns none when
find_slot raises. The timeout on line 688 is by best_t - referral_t from
the current virtual time, and the waiting time recorded is
best_t - referral_t. -/
def PatientReferral.executeHigh (dia : Diary) (pool : List (List Nat)) (t0 home : Nat)
    (draw : Nat) (followUp intensity : Bool) (numAppts : Nat) :
    Option (List Event × Diary) :=
  let pr := 2
  let eArr : Event := { pathway := pr, ev := EventName.arrival, home_clinic := home, time := t0 }
  let eWait : Event :=
    { pathway := pr, ev := EventName.waiting_appointment_to_be_scheduled,
      home_clinic := home, time := t0 }
  match HighPriorityPooledBooker.find_slot dia pool t0 home none draw with
  | none => none
  | some (bt, c) =>
    let dia1 := HighPriorityPooledBooker.book_slot dia bt c
    let eBook : Event :=
      { pathway := pr, ev := EventName.appointment_booked_waiting, home_clinic := home,
        booked_clinic := some c, time := t0 }
    let attendT := t0 + (bt - t0)
    let eHave : Event :=
      { pathway := pr, ev := EventName.have_appointment, home_clinic := home,
        booked_clinic := some c, time := attendT, kind := some ApptKind.assessment,
        wait := some (bt - t0) }
    if followUp then
      let freq :=
        if intensity then HIGH_INTENSITY_FOLLOW_UP_TARGET_INTERVAL
        else LOW_INTENSITY_FOLLOW_UP_TARGET_INTERVAL
      let fu := followUpLoop pr home c (freq - 1) numAppts numAppts dia1 attendT
      let eDep : Event :=
        { pathway := pr, ev := EventName.depart, home_clinic := home, time := fu.2.2 + 1 }
      some (eArr :: eWait :: eBook :: eHave :: (fu.1 ++ [eDep]), fu.2.1)
    else
      let eDep : Event :=
        { pathway := pr, ev := EventName.depart, home_clinic := home, time := attendT + 1 }
      some ([eArr, eWait, eBook, eHave, eDep], dia1)

/-- Common tail of PatientReferral.execute for a priority 1 patient,
lines 586 to 836, once the admission control outcome is fixed: find_slot
runs with min_wait mwUsed from time tSearch, the booking is logged at
virtual time now, and the timeout on line 688 advances by
best_t - referral_t from there. headroom evolution is driven by the
other pathways, so the mask (the caseload eligibility list in force at
the successful check) is an environment parameter; so are headroomNow
and extraDelay in the dispatcher below. -/
def PatientReferral.executeLowFrom (dia : Diary) (pool : List (List Nat)) (t0 home : Nat)
    (mwUsed tSearch now : Nat) (mask : List Bool) (draw : Nat)
    (followUp intensity : Bool) (numAppts : Nat) :
    Option (List Event × Diary) :=
  let pr := 1
  let eArr : Event := { pathway := pr, ev := EventName.arrival, home_clinic := home, time := t0 }
  let eWait : Event :=
    { pathway := pr, ev := EventName.waiting_appointment_to_be_scheduled,
      home_clinic := home, time := t0 }
  match LowPriorityPooledBooker.find_slot dia pool mwUsed tSearch home (some mask) draw with
  | none => none
  | some (bt, c) =>
    let dia1 := LowPriorityPooledBooker.book_slot dia bt c
    let eBook : Event :=
      { pathway := pr, ev := EventName.appointment_booked_waiting, home_clinic := home,
        booked_clinic := some c, time := now }
    let attendT := now + (bt - t0)
    let eHave : Event :=
      { pathway := pr, ev := EventName.have_appointment, home_clinic := home,
        booked_clinic := some c, time := attendT, kind := some ApptKind.assessment,
        wait := some (bt - t0) }
    if followUp then
      let freq :=
        if intensity then HIGH_INTENSITY_FOLLOW_UP_TARGET_INTERVAL
        else LOW_INTENSITY_FOLLOW_UP_TARGET_INTERVAL
      let fu := followUpLoop pr home c (freq - 1) numAppts numAppts dia1 attendT
      let eDep : Event :=
        { pathway := pr, ev := EventName.depart, home_clinic := home, time := fu.2.2 + 1 }
      some (eArr :: eWait :: eBook :: eHave :: (fu.1 ++ [eDep]), fu.2.1)
    else
      let eDep : Event :=
        { pathway := pr, ev := EventName.depart, home_clinic := home, time := attendT + 1 }
      some ([eArr, eWait, eBook, eHave, eDep], dia1)

/-- PatientReferral.execute for a priority 1 patient, dispatching on the
admission control outcome. With immediate headroom (line 631) find_slot
runs with the lowered min_wait LOW_PRIORITY_MIN_WAIT - 1 at
t = referral_t and the booking is logged at virtual time t0 + 1; in the
waiting branch (lines 641 to 661) min_wait is restored, the booking
happens at t0 + 2 + extraDelay and find_slot runs from that current
time. -/
def PatientReferral.executeLow (dia : Diary) (pool : List (List Nat)) (t0 home : Nat)
    (headroomNow : Bool) (extraDelay : Nat) (mask : List Bool) (draw : Nat)
    (followUp intensity : Bool) (numAppts : Nat) :
    Option (List Event × Diary) :=
  if headroomNow then
    PatientReferral.executeLowFrom dia pool t0 home (LOW_PRIORITY_MIN_WAIT - 1) t0 (t0 + 1)
      mask draw followUp intensity numAppts
  else
    PatientReferral.executeLowFrom dia pool t0 home LOW_PRIORITY_MIN_WAIT
      (t0 + 2 + extraDelay) (t0 + 2 + extraDelay) mask draw followUp intensity numAppts

/-! ### Arrivals generator retention and the summariser. -/

/-- Line 933 of AssessmentReferralModel.generate_arrivals: a patient is
stored for the results collection when env.now, the referral day at
which the pathway is created, exceeds warm_up_period. -/
def retainPatient (now warm_up : Nat) : Bool :=
  decide (warm_up < now)

/-- AssessmentReferralModel.process_run_results, lines 972 to 988: the
referrals are (priority, waiting_time) pairs; a referral contributes its
waiting time when that time was set, that is when the assessment was
attended before the run ended. -/
def process_run_results (referrals : List (Nat × Option Nat)) :
    List Nat × List Nat × List Nat :=
  (referrals.filterMap (fun pr => pr.2),
   (referrals.filter (fun pr => pr.1 == 1)).filterMap (fun pr => pr.2),
   (referrals.filter (fun pr => pr.1 == 2)).filterMap (fun pr => pr.2))

/-! ### Scenario diary construction, lines 197 to 240. -/

/-- Number of copies of the 5-row weekly template stacked by the
construction loops: the initial copy plus one per iteration of
range(int(run_length * 1.5)). For integer run_length the float product
run_length * 1.5 truncates to 3 * run_length / 2. -/
def weeklyRepeatCount (run_length : Nat) : Nat :=
  3 * run_length / 2 + 1

/-- Concatenate k copies of a template, as the pd.concat loops do. -/
def repeatTemplate {α : Type} (k : Nat) (tmpl : List (List α)) : List (List α) :=
  (List.replicate k tmpl).flatten

/-- Round half to even, the rounding of DataFrame.round / np.round used
on line 200. The float product is modelled as exact rational
arithmetic. -/
def roundHalfEven (q : ℚ) : ℤ :=
  if q - ⌊q⌋ < 1 / 2 then ⌊q⌋
  else if (1 : ℚ) / 2 < q - ⌊q⌋ then ⌊q⌋ + 1
  else if ⌊q⌋ % 2 = 0 then ⌊q⌋ else ⌊q⌋ + 1

/-- Line 200 and 214: (capacity_template * prop_carve_out).round()
cast to np.uint8, hence reduced modulo 256. -/
def carveTemplate (weekly : List (List Nat)) (prop : ℚ) : List (List Nat) :=
  weekly.map (fun row => row.map (fun w => (roundHalfEven ((w : ℚ) * prop) % 256).toNat))

/-- Line 215: capacity_template - priority_template, int64 minus uint8,
promoted to int64. -/
def openTemplate (weekly : List (List Nat)) (prop : ℚ) : List (List Int) :=
  List.zipWith (fun (rw : List Nat) (rc : List Nat) =>
      List.zipWith (fun w cv => (w : Int) - (cv : Int)) rw rc)
    weekly (carveTemplate weekly prop)

/-- Scenario.create_carve_out, lines 197 to 210. -/
def Scenario.create_carve_out (run_length : Nat) (weekly : List (List Nat)) (prop : ℚ) :
    List (List Nat) :=
  repeatTemplate (weeklyRepeatCount run_length) (carveTemplate weekly prop)

/-- Scenario.create_slots, lines 212 to 224. -/
def Scenario.create_slots (run_length : Nat) (weekly : List (List Nat)) (prop : ℚ) :
    List (List Int) :=
  repeatTemplate (weeklyRepeatCount run_length) (openTemplate weekly prop)

/-- Scenario.create_bookings, lines 226 to 240. -/
def Scenario.create_bookings (run_length clinics : Nat) : List (List Nat) :=
  repeatTemplate (weeklyRepeatCount run_length) (List.replicate 5 (List.replicate clinics 0))

/-! ### Claim-level predicates. -/

/-- Formalisation of the claimed diary bookkeeping identity: for every
cell, bookings equals the integer drop of available plus the integer
drop of carve_out relative to the initial diary. -/
def ZInv (init dia : Diary) : Prop :=
  ∀ d c, (getN dia.bookings d c : Int) =
    (getI init.available d c - getI dia.available d c) +
      ((getN init.carve_out d c : Int) - (getN dia.carve_out d c : Int))

/-- Formalisation of the claimed log ordering property for one pathway
trace: every have_appointment record is preceded in the trace by an
appointment_booked_waiting record with the same booked clinic and an
earlier or equal time. -/
def PriorBookingOK (tr : List Event) : Prop :=
  ∀ j, ∀ hj : j < tr.length, (tr.get ⟨j, hj⟩).ev = EventName.have_appointment →
    ∃ i, ∃ hi : i < tr.length, i < j ∧
      (tr.get ⟨i, hi⟩).ev = EventName.appointment_booked_waiting ∧
      (tr.get ⟨i, hi⟩).booked_clinic = (tr.get ⟨j, hj⟩).booked_clinic ∧
      (tr.get ⟨i, hi⟩).time ≤ (tr.get ⟨j, hj⟩).time

/-- Formalisation of the claimed assessment waiting bound for one
pathway trace referred at t0: every assessment attendance happens at
time at least t0 + m. -/
def AssessAfter (tr : List Event) (t0 m : Nat) : Prop :=
  ∀ e ∈ tr, e.ev = EventName.have_appointment → e.kind = some ApptKind.assessment →
    t0 + m ≤ e.time

/-- All-zero uint8 matrix, used by concrete instances below. -/
def zerosN (d c : Nat) : List (List Nat) :=
  List.replicate d (List.replicate c 0)

/-! ### Concrete instances used by witnesses and counterexamples. -/

/-- A 10-day one-clinician diary with five public slots per day. -/
def exDiary : Diary := ⟨List.replicate 10 [5], zerosN 10 1, zerosN 10 1⟩

/-- Trivial pooling over a single clinician. -/
def exPool : List (List Nat) := [[1]]

/-- A 2-day two-clinician diary where both clinicians have one public
slot on day 1. -/
def exDiary2 : Diary := ⟨[[0, 0], [1, 1]], zerosN 2 2, zerosN 2 2⟩

/-- Full pooling over two clinicians. -/
def exPool2 : List (List Nat) := [[1, 1], [1, 1]]

/-- A 3-day two-clinician diary with a negative available entry (the
state RepeatBooker.book_slot produces on an exhausted diary): on day 1
the entries are 5 and -6, on day 2 they are 1 and 0. -/
def exDiaryNeg : Diary := ⟨[[0, 0], [5, -6], [1, 0]], zerosN 3 2, zerosN 3 2⟩

/-- A 10-day one-clinician diary with no available slot at all. -/
def exDiaryEmpty : Diary := ⟨List.replicate 10 ([0] : List Int), zerosN 10 1, zerosN 10 1⟩

/-- One concrete priority 2 pathway over exDiary. -/
def exRunHigh : Option (List Event × Diary) :=
  PatientReferral.executeHigh exDiary exPool 0 0 0 false false 0

/-- The trace of exRunHigh. -/
def exTraceHigh : List Event := (exRunHigh.getD ([], exDiary)).1

/-- The final diary of exRunHigh. -/
def exDiaHigh : Diary := (exRunHigh.getD ([], exDiary)).2

/-- One concrete priority 1 pathway over exDiary with immediate
headroom. -/
def exRunLow : Option (List Event × Diary) :=
  PatientReferral.executeLow exDiary exPool 0 0 true 0 [true] 0 false false 0

/-- The trace of exRunLow. -/
def exTraceLow : List Event := (exRunLow.getD ([], exDiary)).1

/-- The final diary of exRunLow. -/
def exDiaLow : Diary := (exRunLow.getD ([], exDiary)).2

/-! ## Helper lemmas: findFirst. -/

theorem findFirst_eq_none {p : Nat → Bool} :
    ∀ {n}, findFirst p n = none → ∀ i, i < n → p i = false := by
  intro n
  induction n with
  | zero => intro _ i hi; omega
  | succ m ih =>
    intro h i hi
    unfold findFirst at h
    cases hf : findFirst p m with
    | some r => rw [hf] at h; simp at h
    | none =>
      rw [hf] at h
      cases hpm : p m with
      | true => rw [hpm] at h; simp at h
      | false =>
        rcases Nat.lt_succ_iff_lt_or_eq.mp hi with h2 | h2
        · exact ih hf i h2
        · rw [h2]; exact hpm

theorem findFirst_eq_some {p : Nat → Bool} :
    ∀ {n r}, findFirst p n = some r → r < n ∧ p r = true ∧ ∀ i, i < r → p i = false := by
  intro n
  induction n with
  | zero => intro r h; simp [findFirst] at h
  | succ m ih =>
    intro r h
    unfold findFirst at h
    cases hf : findFirst p m with
    | some q =>
      rw [hf] at h
      have hq : q = r := by simpa using h
      subst hq
      obtain ⟨h1, h2, h3⟩ := ih hf
      exact ⟨by omega, h2, h3⟩
    | none =>
      rw [hf] at h
      cases hpm : p m with
      | false => rw [hpm] at h; simp at h
      | true =>
        rw [hpm] at h
        have hm : m = r := by simpa using h
        subst hm
        exact ⟨Nat.lt_succ_self m, hpm, findFirst_eq_none hf⟩

theorem findFirst_of_forall_false {p : Nat → Bool} :
    ∀ {n}, (∀ i, i < n → p i = false) → findFirst p n = none := by
  intro n
  induction n with
  | zero => intro _; rfl
  | succ m ih =>
    intro h
    unfold findFirst
    rw [ih (fun i hi => h i (by omega)), h m (by omega)]
    simp

/-! ## Helper lemmas: matrix reads and writes. -/

theorem getD_set {α : Type} (l : List α) (i j : Nat) (a dflt : α) :
    (l.set i a).getD j dflt = if i = j ∧ i < l.length then a else l.getD j dflt := by
  rw [List.getD_eq_getElem?_getD, List.getD_eq_getElem?_getD, List.getElem?_set]
  by_cases h : i = j
  · subst h
    by_cases hl : i < l.length
    · simp [hl]
    · rw [if_pos rfl, if_neg hl, if_neg (fun hx => hl hx.2),
        List.getElem?_eq_none (Nat.le_of_not_lt hl)]
  · simp [h]

theorem getI_upd2I_self (m : List (List Int)) (d c : Nat) (f : Int → Int)
    (h : inRange m d c) : getI (upd2I m d c f) d c = f (getI m d c) := by
  obtain ⟨hd, hc⟩ := h
  unfold upd2I getI
  rw [getD_set, if_pos ⟨rfl, hd⟩, getD_set, if_pos ⟨rfl, hc⟩]

theorem getI_upd2I_ne (m : List (List Int)) (d c : Nat) (f : Int → Int) (d2 c2 : Nat)
    (h : ¬(d2 = d ∧ c2 = c)) : getI (upd2I m d c f) d2 c2 = getI m d2 c2 := by
  unfold upd2I getI
  by_cases hd : d = d2
  · subst hd
    have hc : ¬ c = c2 := fun hc => h ⟨rfl, hc.symm⟩
    rw [getD_set]
    by_cases hdl : d < m.length
    · rw [if_pos ⟨rfl, hdl⟩, getD_set, if_neg (fun hx => hc hx.1)]
    · rw [if_neg (fun hx => hdl hx.2)]
  · rw [getD_set, if_neg (fun hx => hd hx.1)]

theorem getN_upd2N_self (m : List (List Nat)) (d c : Nat) (f : Nat → Nat)
    (h : inRange m d c) : getN (upd2N m d c f) d c = f (getN m d c) := by
  obtain ⟨hd, hc⟩ := h
  unfold upd2N getN
  rw [getD_set, if_pos ⟨rfl, hd⟩, getD_set, if_pos ⟨rfl, hc⟩]

theorem getN_upd2N_ne (m : List (List Nat)) (d c : Nat) (f : Nat → Nat) (d2 c2 : Nat)
    (h : ¬(d2 = d ∧ c2 = c)) : getN (upd2N m d c f) d2 c2 = getN m d2 c2 := by
  unfold upd2N getN
  by_cases hd : d = d2
  · subst hd
    have hc : ¬ c = c2 := fun hc => h ⟨rfl, hc.symm⟩
    rw [getD_set]
    by_cases hdl : d < m.length
    · rw [if_pos ⟨rfl, hdl⟩, getD_set, if_neg (fun hx => hc hx.1)]
    · rw [if_neg (fun hx => hdl hx.2)]
  · rw [getD_set, if_neg (fun hx => hd hx.1)]

/-! ## Helper lemmas: book_slot effects. -/

theorem repeat_book_eq_low (dia : Diary) (t c : Nat) :
    RepeatBooker.book_slot dia t c = LowPriorityPooledBooker.book_slot dia t c := rfl

theorem low_book_carve (dia : Diary) (t c : Nat) :
    (LowPriorityPooledBooker.book_slot dia t c).carve_out = dia.carve_out := rfl

theorem low_book_avail_at (dia : Diary) (t c : Nat) (h : inRange dia.available t c) :
    getI (LowPriorityPooledBooker.book_slot dia t c).available t c =
      getI dia.available t c - 1 :=
  getI_upd2I_self dia.available t c (fun v => v - 1) h

theorem low_book_avail_ne (dia : Diary) (t c d c2 : Nat) (h : ¬(d = t ∧ c2 = c)) :
    getI (LowPriorityPooledBooker.book_slot dia t c).available d c2 =
      getI dia.available d c2 :=
  getI_upd2I_ne dia.available t c (fun v => v - 1) d c2 h

theorem low_book_bookings_at (dia : Diary) (t c : Nat) (h : inRange dia.bookings t c) :
    getN (LowPriorityPooledBooker.book_slot dia t c).bookings t c =
      (getN dia.bookings t c + 1) % 256 :=
  getN_upd2N_self dia.bookings t c (fun v => (v + 1) % 256) h

theorem low_book_bookings_ne (dia : Diary) (t c d c2 : Nat) (h : ¬(d = t ∧ c2 = c)) :
    getN (LowPriorityPooledBooker.book_slot dia t c).bookings d c2 =
      getN dia.bookings d c2 :=
  getN_upd2N_ne dia.bookings t c (fun v => (v + 1) % 256) d c2 h

theorem high_book_carve_pos (dia : Diary) (t c : Nat) (h : 0 < getN dia.carve_out t c)
    (hr : inRange dia.carve_out t c) :
    getN (HighPriorityPooledBooker.book_slot dia t c).carve_out t c =
      getN dia.carve_out t c - 1 ∧
    (HighPriorityPooledBooker.book_slot dia t c).available = dia.available := by
  unfold HighPriorityPooledBooker.book_slot
  rw [if_pos h]
  exact ⟨getN_upd2N_self dia.carve_out t c (fun v => v - 1) hr, rfl⟩

theorem high_book_carve_zero (dia : Diary) (t c : Nat) (h : getN dia.carve_out t c = 0)
    (hr : inRange dia.available t c) :
    (HighPriorityPooledBooker.book_slot dia t c).carve_out = dia.carve_out ∧
    getI (HighPriorityPooledBooker.book_slot dia t c).available t c =
      getI dia.available t c - 1 := by
  unfold HighPriorityPooledBooker.book_slot
  rw [if_neg (by omega)]
  exact ⟨rfl, getI_upd2I_self dia.available t c (fun v => v - 1) hr⟩

theorem high_book_carve_ne (dia : Diary) (t c d c2 : Nat) (h : ¬(d = t ∧ c2 = c)) :
    getN (HighPriorityPooledBooker.book_slot dia t c).carve_out d c2 =
      getN dia.carve_out d c2 := by
  unfold HighPriorityPooledBooker.book_slot
  by_cases hp : 0 < getN dia.carve_out t c
  · rw [if_pos hp]; exact getN_upd2N_ne dia.carve_out t c (fun v => v - 1) d c2 h
  · rw [if_neg hp]

theorem high_book_avail_ne (dia : Diary) (t c d c2 : Nat) (h : ¬(d = t ∧ c2 = c)) :
    getI (HighPriorityPooledBooker.book_slot dia t c).available d c2 =
      getI dia.available d c2 := by
  unfold HighPriorityPooledBooker.book_slot
  by_cases hp : 0 < getN dia.carve_out t c
  · rw [if_pos hp]
  · rw [if_neg hp]; exact getI_upd2I_ne dia.available t c (fun v => v - 1) d c2 h

theorem high_book_bookings_at (dia : Diary) (t c : Nat) (h : inRange dia.bookings t c) :
    getN (HighPriorityPooledBooker.book_slot dia t c).bookings t c =
      (getN dia.bookings t c + 1) % 256 := by
  unfold HighPriorityPooledBooker.book_slot
  by_cases hp : 0 < getN dia.carve_out t c
  · rw [if_pos hp]; exact getN_upd2N_self dia.bookings t c (fun v => (v + 1) % 256) h
  · rw [if_neg hp]; exact getN_upd2N_self dia.bookings t c (fun v => (v + 1) % 256) h

theorem high_book_bookings_ne (dia : Diary) (t c d c2 : Nat) (h : ¬(d = t ∧ c2 = c)) :
    getN (HighPriorityPooledBooker.book_slot dia t c).bookings d c2 =
      getN dia.bookings d c2 := by
  unfold HighPriorityPooledBooker.book_slot
  by_cases hp : 0 < getN dia.carve_out t c
  · rw [if_pos hp]; exact getN_upd2N_ne dia.bookings t c (fun v => (v + 1) % 256) d c2 h
  · rw [if_neg hp]; exact getN_upd2N_ne dia.bookings t c (fun v => (v + 1) % 256) d c2 h

/-! ## Helper lemmas: find_slot. -/

theorem low_find_ge (dia : Diary) (pool : List (List Nat)) (mw t cid : Nat)
    (limit : Option (List Bool)) (draw d c : Nat)
    (h : LowPriorityPooledBooker.find_slot dia pool mw t cid limit draw = some (d, c)) :
    t + mw ≤ d := by
  unfold LowPriorityPooledBooker.find_slot at h
  split at h
  · simp at h
  · rename_i rel hf
    simp only [Option.some.injEq, Prod.mk.injEq] at h
    omega

theorem high_find_ge (dia : Diary) (pool : List (List Nat)) (t cid : Nat)
    (limit : Option (List Bool)) (draw d c : Nat)
    (h : HighPriorityPooledBooker.find_slot dia pool t cid limit draw = some (d, c)) :
    t + HighPriorityPooledBooker.min_wait ≤ d := by
  unfold HighPriorityPooledBooker.find_slot at h
  split at h
  · simp at h
  · rename_i rel hf
    simp only [Option.some.injEq, Prod.mk.injEq] at h
    omega

theorem repeat_find_ge (dia : Diary) (mw t cid : Nat) :
    t + mw ≤ (RepeatBooker.find_slot dia mw t cid).1 := by
  unfold RepeatBooker.find_slot
  dsimp only
  omega

theorem choosePositive_spec (opts : List Nat) (val : Nat → Int) (draw : Nat)
    (h : ∃ j ∈ opts, 0 < val j) :
    choosePositive opts val draw ∈ opts ∧ 0 < val (choosePositive opts val draw) := by
  unfold choosePositive
  obtain ⟨j, hj, hjpos⟩ := h
  have hjf : j ∈ opts.filter (fun j => decide (0 < val j)) := by
    rw [List.mem_filter]
    exact ⟨hj, by simpa using hjpos⟩
  have hne : opts.filter (fun j => decide (0 < val j)) ≠ [] :=
    List.ne_nil_of_mem hjf
  have hlen : 0 < (opts.filter (fun j => decide (0 < val j))).length :=
    List.length_pos.mpr hne
  have hmem : (opts.filter (fun j => decide (0 < val j))).getD
      (draw % (opts.filter (fun j => decide (0 < val j))).length) 0 ∈
      opts.filter (fun j => decide (0 < val j)) := by
    rw [List.getD_eq_getElem?_getD, List.getElem?_eq_getElem (Nat.mod_lt _ hlen)]
    exact List.getElem_mem _
  have hsplit := List.mem_filter.mp hmem
  exact ⟨hsplit.1, by simpa using hsplit.2⟩

/-- Full characterisation of the high priority find_slot as invoked by
the pathway (without a clinician mask): the returned day is the first
day of the forward window on which any eligible clinician has positive
combined capacity, and the returned clinician is eligible with positive
combined capacity on that day. -/
theorem high_find_some_spec (dia : Diary) (pool : List (List Nat)) (t cid draw d c : Nat)
    (h : HighPriorityPooledBooker.find_slot dia pool t cid none draw = some (d, c)) :
    t + 1 ≤ d ∧
    highGoodDay dia (bookerOpts pool cid none) none d = true ∧
    (∀ d2, t + 1 ≤ d2 → d2 < d → highGoodDay dia (bookerOpts pool cid none) none d2 = false) ∧
    c ∈ bookerOpts pool cid none ∧ 0 < combinedAt dia d c := by
  unfold HighPriorityPooledBooker.find_slot at h
  rw [show HighPriorityPooledBooker.min_wait = 1 from rfl] at h
  split at h
  · simp at h
  · rename_i rel hf
    simp only [Option.some.injEq, Prod.mk.injEq] at h
    obtain ⟨hd, hc⟩ := h
    obtain ⟨hrel, hgood, hmin⟩ := findFirst_eq_some hf
    have hidx : t + 1 + rel = d := by omega
    rw [hidx] at hgood
    have hany : ∃ j ∈ bookerOpts pool cid none, 0 < combinedAt dia d j := by
      have := hgood
      unfold highGoodDay at this
      simpa using this
    refine ⟨by omega, hgood, ?_, ?_⟩
    · intro d2 h1 h2
      have h3 := hmin (d2 - (t + 1)) (by omega)
      have h4 : t + 1 + (d2 - (t + 1)) = d2 := by omega
      rw [h4] at h3
      exact h3
    · have hcs := choosePositive_spec (bookerOpts pool cid none)
        (fun j => combinedAt dia (t + 1 + rel) j) draw (by rw [hidx]; exact hany)
      rw [← hc, ← hidx]
      exact hcs

/-! ## Helper lemmas: the follow-up loop. -/

theorem followUpLoop_mem (prio home clinic mw total : Nat) :
    ∀ n dia now e, e ∈ (followUpLoop prio home clinic mw total n dia now).1 →
      e.booked_clinic = some clinic ∧ now ≤ e.time ∧
      e.ev ≠ EventName.appointment_booked_waiting ∧
      (e.ev = EventName.have_appointment → e.kind = some ApptKind.followUp) := by
  intro n
  induction n with
  | zero => intro dia now e he; simp [followUpLoop] at he
  | succ m ih =>
    intro dia now e he
    simp only [followUpLoop] at he
    have hbt : now + mw ≤ (RepeatBooker.find_slot dia mw now clinic).1 :=
      repeat_find_ge dia mw now clinic
    rcases List.mem_cons.mp he with rfl | he2
    · exact ⟨rfl, Nat.le_refl _, by simp, by simp⟩
    rcases List.mem_cons.mp he2 with rfl | he3
    · exact ⟨rfl, by dsimp only; omega, by simp, fun _ => rfl⟩
    · obtain ⟨h1, h2, h3, h4⟩ := ih _ _ e he3
      exact ⟨h1, by omega, h3, h4⟩

theorem followUpLoop_carve (prio home clinic mw total : Nat) :
    ∀ n dia now,
      ((followUpLoop prio home clinic mw total n dia now).2.1).carve_out = dia.carve_out := by
  intro n
  induction n with
  | zero => intro dia now; rfl
  | succ m ih =>
    intro dia now
    simp only [followUpLoop]
    rw [ih]
    rfl

/-! ## Helper lemmas: pathway trace shape. -/

theorem priorBooking_shape (a b bk : Event) (rest : List Event)
    (ha : a.ev ≠ EventName.have_appointment)
    (hb : b.ev ≠ EventName.have_appointment)
    (hbk : bk.ev = EventName.appointment_booked_waiting)
    (hrest : ∀ e ∈ rest, e.ev = EventName.have_appointment →
      e.booked_clinic = bk.booked_clinic ∧ bk.time ≤ e.time) :
    PriorBookingOK (a :: b :: bk :: rest) := by
  intro j hj hev
  match j, hj, hev with
  | 0, hj, hev => exact absurd hev ha
  | 1, hj, hev => exact absurd hev hb
  | 2, hj, hev =>
    have hget : (a :: b :: bk :: rest).get ⟨2, hj⟩ = bk := rfl
    rw [hget, hbk] at hev
    simp at hev
  | (j + 3), hj, hev =>
    have hjr : j < rest.length := by
      have := hj
      simp only [List.length_cons] at this
      omega
    have hget : (a :: b :: bk :: rest).get ⟨j + 3, hj⟩ = rest.get ⟨j, hjr⟩ := rfl
    rw [hget] at hev
    have hmem : rest.get ⟨j, hjr⟩ ∈ rest := rest.get_mem _ _
    obtain ⟨hcl, htm⟩ := hrest _ hmem hev
    have h2 : 2 < (a :: b :: bk :: rest).length := by
      simp only [List.length_cons]
      omega
    have hg2 : (a :: b :: bk :: rest).get ⟨2, h2⟩ = bk := rfl
    refine ⟨2, h2, by omega, ?_, ?_, ?_⟩
    · rw [hg2]
      exact hbk
    · rw [hg2, hget]
      exact hcl.symm
    · rw [hg2, hget]
      exact htm

/-! ## Helper lemmas: pathway traces. -/

theorem executeHigh_trace_facts (dia : Diary) (pool : List (List Nat)) (t0 home draw : Nat)
    (fu it : Bool) (n : Nat) (tr : List Event) (dia2 : Diary)
    (h : PatientReferral.executeHigh dia pool t0 home draw fu it n = some (tr, dia2)) :
    PriorBookingOK tr ∧
    (∀ e ∈ tr, e.ev = EventName.have_appointment →
      (e.kind = some ApptKind.assessment → t0 + 1 ≤ e.time) ∧ t0 < e.time) := by
  simp only [PatientReferral.executeHigh] at h
  split at h
  · simp at h
  · rename_i bt c hf
    have hbt : t0 + 1 ≤ bt := high_find_ge dia pool t0 home none draw bt c hf
    split at h
    · simp only [Option.some.injEq, Prod.mk.injEq] at h
      obtain ⟨htr, hdia⟩ := h
      subst htr
      constructor
      · apply priorBooking_shape
        · simp
        · simp
        · rfl
        · intro e he hev
          rcases List.mem_cons.mp he with rfl | he2
          · exact ⟨rfl, by dsimp only; omega⟩
          rcases List.mem_append.mp he2 with he3 | he4
          · obtain ⟨h1, h2, _, _⟩ :=
              followUpLoop_mem 2 home c _ n n _ _ e he3
            refine ⟨h1, ?_⟩
            dsimp only
            omega
          · simp only [List.mem_singleton] at he4
            subst he4
            simp at hev
      · intro e he hev
        simp only [List.mem_cons, List.mem_append, List.mem_singleton,
          List.not_mem_nil, or_false] at he
        rcases he with rfl | rfl | rfl | rfl | he2 | rfl
        · simp at hev
        · simp at hev
        · simp at hev
        · exact ⟨fun _ => by dsimp only; omega, by dsimp only; omega⟩
        · obtain ⟨_, h2, _, h4⟩ := followUpLoop_mem 2 home c _ n n _ _ e he2
          refine ⟨fun hk => absurd (h4 hev ▸ hk) (by simp), by omega⟩
        · simp at hev
    · simp only [Option.some.injEq, Prod.mk.injEq] at h
      obtain ⟨htr, hdia⟩ := h
      subst htr
      constructor
      · apply priorBooking_shape
        · simp
        · simp
        · rfl
        · intro e he hev
          simp only [List.mem_cons, List.mem_singleton, List.not_mem_nil, or_false] at he
          rcases he with rfl | rfl
          · exact ⟨rfl, by dsimp only; omega⟩
          · simp at hev
      · intro e he hev
        simp only [List.mem_cons, List.mem_singleton, List.not_mem_nil, or_false] at he
        rcases he with rfl | rfl | rfl | rfl | rfl
        · simp at hev
        · simp at hev
        · simp at hev
        · exact ⟨fun _ => by dsimp only; omega, by dsimp only; omega⟩
        · simp at hev

theorem executeLowFrom_trace_facts (dia : Diary) (pool : List (List Nat))
    (t0 home mwUsed tSearch now : Nat) (mask : List Bool) (draw : Nat)
    (fu it : Bool) (n : Nat) (tr : List Event) (dia2 : Diary)
    (hnow : t0 ≤ now)
    (hts : t0 + (LOW_PRIORITY_MIN_WAIT - 1) ≤ tSearch + mwUsed)
    (h : PatientReferral.executeLowFrom dia pool t0 home mwUsed tSearch now mask draw fu it n =
      some (tr, dia2)) :
    PriorBookingOK tr ∧
    (∀ e ∈ tr, e.ev = EventName.have_appointment →
      (e.kind = some ApptKind.assessment → t0 + (LOW_PRIORITY_MIN_WAIT - 1) ≤ e.time) ∧
      t0 < e.time) ∧
    dia2.carve_out = dia.carve_out := by
  simp only [PatientReferral.executeLowFrom] at h
  split at h
  · simp at h
  · rename_i bt c hf
    have hbt : tSearch + mwUsed ≤ bt :=
      low_find_ge dia pool mwUsed tSearch home (some mask) draw bt c hf
    have hbt0 : t0 + 6 ≤ bt := by
      have : (7 : Nat) - 1 = 6 := rfl
      unfold LOW_PRIORITY_MIN_WAIT at hts
      omega
    split at h
    · simp only [Option.some.injEq, Prod.mk.injEq] at h
      obtain ⟨htr, hdia⟩ := h
      subst htr
      refine ⟨?_, ?_, ?_⟩
      · apply priorBooking_shape
        · simp
        · simp
        · rfl
        · intro e he hev
          rcases List.mem_cons.mp he with rfl | he2
          · exact ⟨rfl, by dsimp only; omega⟩
          rcases List.mem_append.mp he2 with he3 | he4
          · obtain ⟨h1, h2, _, _⟩ :=
              followUpLoop_mem 1 home c _ n n _ _ e he3
            refine ⟨h1, ?_⟩
            dsimp only
            omega
          · simp only [List.mem_singleton] at he4
            subst he4
            simp at hev
      · intro e he hev
        simp only [List.mem_cons, List.mem_append, List.mem_singleton,
          List.not_mem_nil, or_false] at he
        rcases he with rfl | rfl | rfl | rfl | he2 | rfl
        · simp at hev
        · simp at hev
        · simp at hev
        · refine ⟨fun _ => ?_, ?_⟩
          · dsimp only
            unfold LOW_PRIORITY_MIN_WAIT
            omega
          · dsimp only
            omega
        · obtain ⟨_, h2, _, h4⟩ := followUpLoop_mem 1 home c _ n n _ _ e he2
          refine ⟨fun hk => absurd (h4 hev ▸ hk) (by simp), by omega⟩
        · simp at hev
      · rw [← hdia, followUpLoop_carve]
        rfl
    · simp only [Option.some.injEq, Prod.mk.injEq] at h
      obtain ⟨htr, hdia⟩ := h
      subst htr
      refine ⟨?_, ?_, ?_⟩
      · apply priorBooking_shape
        · simp
        · simp
        · rfl
        · intro e he hev
          simp only [List.mem_cons, List.mem_singleton, List.not_mem_nil, or_false] at he
          rcases he with rfl | rfl
          · exact ⟨rfl, by dsimp only; omega⟩
          · simp at hev
      · intro e he hev
        simp only [List.mem_cons, List.mem_singleton, List.not_mem_nil, or_false] at he
        rcases he with rfl | rfl | rfl | rfl | rfl
        · simp at hev
        · simp at hev
        · simp at hev
        · refine ⟨fun _ => ?_, ?_⟩
          · dsimp only
            unfold LOW_PRIORITY_MIN_WAIT
            omega
          · dsimp only
            omega
        · simp at hev
      · rw [← hdia]
        rfl

/-! ## Helper lemmas: diary construction. -/

theorem repeatTemplate_length {α : Type} (tmpl : List (List α)) :
    ∀ k, (repeatTemplate k tmpl).length = k * tmpl.length := by
  intro k
  induction k with
  | zero => simp [repeatTemplate]
  | succ m ih =>
    unfold repeatTemplate at *
    rw [List.replicate_succ, List.flatten_cons, List.length_append, ih]
    ring

theorem repeatTemplate_getD {α : Type} (tmpl : List (List α)) (h5 : tmpl.length = 5) :
    ∀ k d, d < 5 * k → (repeatTemplate k tmpl).getD d [] = tmpl.getD (d % 5) [] := by
  intro k
  induction k with
  | zero => intro d hd; omega
  | succ m ih =>
    intro d hd
    unfold repeatTemplate at *
    rw [List.replicate_succ, List.flatten_cons]
    by_cases h : d < 5
    · rw [List.getD_eq_getElem?_getD, List.getElem?_append_left (by omega),
        ← List.getD_eq_getElem?_getD, Nat.mod_eq_of_lt h]
    · rw [List.getD_eq_getElem?_getD, List.getElem?_append_right (by omega),
        ← List.getD_eq_getElem?_getD, h5]
      have hrec := ih (d - 5) (by omega)
      rw [hrec]
      have hm : (d - 5) % 5 = d % 5 := by omega
      rw [hm]

theorem getD_replicate_zero (n c : Nat) : (List.replicate n (0 : Nat)).getD c 0 = 0 := by
  simp only [List.getD_eq_getElem?_getD, List.getElem?_replicate]
  by_cases h : c < n
  · simp [h]
  · simp [h]

theorem zerosN_getN (r c0 d c : Nat) : getN (zerosN r c0) d c = 0 := by
  unfold zerosN getN
  rcases Nat.lt_or_ge d r with h | h
  · rw [show (List.replicate r (List.replicate c0 0)).getD d [] = List.replicate c0 0 from by
      simp only [List.getD_eq_getElem?_getD, List.getElem?_replicate_of_lt h, Option.getD_some]]
    exact getD_replicate_zero c0 c
  · rw [show (List.replicate r (List.replicate c0 0)).getD d [] = [] from by
      simp only [List.getD_eq_getElem?_getD]
      rw [List.getElem?_eq_none (by simpa using h)]
      rfl]
    rfl

theorem create_bookings_getN (rl clinics d c : Nat) :
    getN (Scenario.create_bookings rl clinics) d c = 0 := by
  unfold Scenario.create_bookings getN
  rcases Nat.lt_or_ge d (repeatTemplate (weeklyRepeatCount rl)
      (List.replicate 5 (List.replicate clinics 0))).length with h | h
  · have hrow : (repeatTemplate (weeklyRepeatCount rl)
        (List.replicate 5 (List.replicate clinics 0))).getD d [] ∈
        repeatTemplate (weeklyRepeatCount rl) (List.replicate 5 (List.replicate clinics 0)) := by
      rw [List.getD_eq_getElem?_getD, List.getElem?_eq_getElem h]
      exact List.getElem_mem _
    obtain ⟨l, hl, hrl⟩ := List.mem_flatten.mp hrow
    have hl2 : l = List.replicate 5 (List.replicate clinics 0) := List.eq_of_mem_replicate hl
    subst hl2
    have hr2 := List.eq_of_mem_replicate hrl
    rw [hr2]
    exact getD_replicate_zero clinics c
  · rw [show (repeatTemplate (weeklyRepeatCount rl)
        (List.replicate 5 (List.replicate clinics 0))).getD d [] = [] from by
      simp only [List.getD_eq_getElem?_getD]
      rw [List.getElem?_eq_none (by omega)]
      rfl]
    rfl

/-! ## Claim theorems. -/

/-- C1: determinism under the seed vector alone fails. The clinician
tie-break in find_slot draws from the module-global random stream of the
Python random module, which is never seeded from the Scenario seed
vector (no random.seed call exists in the repository sources). With
identical diary, pooling, configuration and seed-derived samples, two
states of that global stream (draw indices 0 and 1, both legal results
of random.randint(0, 1) when two clinicians are tied) produce different
event logs: the booked clinician differs. -/
theorem C1_event_log_depends_on_unseeded_rng :
    PatientReferral.executeHigh exDiary2 exPool2 0 0 0 false false 0 ≠
      PatientReferral.executeHigh exDiary2 exPool2 0 0 1 false false 0 := by
  decide

/-- C2: in every pathway trace, each have_appointment record is preceded
by an appointment_booked_waiting record with the same booked clinic and
an earlier or equal time; assessment attendance happens at least
min_wait days after referral_t, where the priority 1 minimum wait of
LOW_PRIORITY_MIN_WAIT is lowered by exactly one for the anti-leapfrog
day; and each find_slot returns a day at least t plus its current
min_wait. -/
theorem C2_booking_precedes_attendance :
    (∀ dia pool mw t cid limit draw d c,
      LowPriorityPooledBooker.find_slot dia pool mw t cid limit draw = some (d, c) →
      t + mw ≤ d) ∧
    (∀ dia pool t cid limit draw d c,
      HighPriorityPooledBooker.find_slot dia pool t cid limit draw = some (d, c) →
      t + HighPriorityPooledBooker.min_wait ≤ d) ∧
    (∀ dia mw t cid, t + mw ≤ (RepeatBooker.find_slot dia mw t cid).1) ∧
    (∀ dia pool t0 home draw fu it n tr dia2,
      PatientReferral.executeHigh dia pool t0 home draw fu it n = some (tr, dia2) →
      PriorBookingOK tr ∧ AssessAfter tr t0 HighPriorityPooledBooker.min_wait) ∧
    (∀ dia pool t0 home hr k mask draw fu it n tr dia2,
      PatientReferral.executeLow dia pool t0 home hr k mask draw fu it n = some (tr, dia2) →
      PriorBookingOK tr ∧ AssessAfter tr t0 (LOW_PRIORITY_MIN_WAIT - 1)) := by
  refine ⟨?_, ?_, ?_, ?_, ?_⟩
  · exact fun dia pool mw t cid limit draw d c h =>
      low_find_ge dia pool mw t cid limit draw d c h
  · exact fun dia pool t cid limit draw d c h =>
      high_find_ge dia pool t cid limit draw d c h
  · exact fun dia mw t cid => repeat_find_ge dia mw t cid
  · intro dia pool t0 home draw fu it n tr dia2 h
    obtain ⟨h1, h2⟩ := executeHigh_trace_facts dia pool t0 home draw fu it n tr dia2 h
    exact ⟨h1, fun e he hev hk => (h2 e he hev).1 hk⟩
  · intro dia pool t0 home hr k mask draw fu it n tr dia2 h
    unfold PatientReferral.executeLow at h
    by_cases hhr : hr = true
    · rw [if_pos hhr] at h
      obtain ⟨h1, h2, _⟩ := executeLowFrom_trace_facts dia pool t0 home
        (LOW_PRIORITY_MIN_WAIT - 1) t0 (t0 + 1) mask draw fu it n tr dia2
        (by omega) (by omega) h
      exact ⟨h1, fun e he hev hk => (h2 e he hev).1 hk⟩
    · rw [if_neg hhr] at h
      obtain ⟨h1, h2, _⟩ := executeLowFrom_trace_facts dia pool t0 home
        LOW_PRIORITY_MIN_WAIT (t0 + 2 + k) (t0 + 2 + k) mask draw fu it n tr dia2
        (by omega) (by omega) h
      exact ⟨h1, fun e he hev hk => (h2 e he hev).1 hk⟩

/-- Witness for C2 at concrete pathway runs. -/
theorem C2_witness :
    ((0 : Nat) + 6 ≤ 6) ∧
    (PriorBookingOK exTraceHigh ∧ AssessAfter exTraceHigh 0 HighPriorityPooledBooker.min_wait) ∧
    (PriorBookingOK exTraceLow ∧ AssessAfter exTraceLow 0 (LOW_PRIORITY_MIN_WAIT - 1)) :=
  ⟨C2_booking_precedes_attendance.1 exDiary exPool 6 0 0 (some [true]) 0 6 0 (by decide),
   C2_booking_precedes_attendance.2.2.2.1 exDiary exPool 0 0 0 false false 0
     exTraceHigh exDiaHigh (by decide),
   C2_booking_precedes_attendance.2.2.2.2 exDiary exPool 0 0 true 0 [true] 0 false false 0
     exTraceLow exDiaLow (by decide)⟩

/-- C3: no booking on behalf of a priority 1 patient ever decrements the
carve-out matrix. LowPriorityPooledBooker.book_slot and
RepeatBooker.book_slot leave carve_out unchanged and change available
and bookings only at the booked day and clinic, for every diary state
and every call; and a whole priority 1 pathway leaves carve_out
unchanged. -/
theorem C3_priority1_never_decrements_carve_out :
    (∀ dia t c,
      (LowPriorityPooledBooker.book_slot dia t c).carve_out = dia.carve_out ∧
      (RepeatBooker.book_slot dia t c).carve_out = dia.carve_out) ∧
    (∀ dia t c d c2, ¬(d = t ∧ c2 = c) →
      getI (LowPriorityPooledBooker.book_slot dia t c).available d c2 = getI dia.available d c2 ∧
      getN (LowPriorityPooledBooker.book_slot dia t c).bookings d c2 = getN dia.bookings d c2 ∧
      getI (RepeatBooker.book_slot dia t c).available d c2 = getI dia.available d c2 ∧
      getN (RepeatBooker.book_slot dia t c).bookings d c2 = getN dia.bookings d c2) ∧
    (∀ dia pool t0 home hr k mask draw fu it n tr dia2,
      PatientReferral.executeLow dia pool t0 home hr k mask draw fu it n = some (tr, dia2) →
      dia2.carve_out = dia.carve_out) := by
  refine ⟨fun dia t c => ⟨rfl, rfl⟩, ?_, ?_⟩
  · intro dia t c d c2 h
    exact ⟨low_book_avail_ne dia t c d c2 h, low_book_bookings_ne dia t c d c2 h,
      low_book_avail_ne dia t c d c2 h, low_book_bookings_ne dia t c d c2 h⟩
  · intro dia pool t0 home hr k mask draw fu it n tr dia2 h
    unfold PatientReferral.executeLow at h
    by_cases hhr : hr = true
    · rw [if_pos hhr] at h
      exact (executeLowFrom_trace_facts dia pool t0 home
        (LOW_PRIORITY_MIN_WAIT - 1) t0 (t0 + 1) mask draw fu it n tr dia2
        (by omega) (by omega) h).2.2
    · rw [if_neg hhr] at h
      exact (executeLowFrom_trace_facts dia pool t0 home
        LOW_PRIORITY_MIN_WAIT (t0 + 2 + k) (t0 + 2 + k) mask draw fu it n tr dia2
        (by omega) (by omega) h).2.2

/-- Witness for C3 at a concrete state and pathway. -/
theorem C3_witness :
    ((LowPriorityPooledBooker.book_slot exDiary 6 0).carve_out = exDiary.carve_out ∧
      (RepeatBooker.book_slot exDiary 6 0).carve_out = exDiary.carve_out) ∧
    getI (LowPriorityPooledBooker.book_slot exDiary 6 0).available 2 0 =
      getI exDiary.available 2 0 ∧
    exDiaLow.carve_out = exDiary.carve_out :=
  ⟨C3_priority1_never_decrements_carve_out.1 exDiary 6 0,
   (C3_priority1_never_decrements_carve_out.2.1 exDiary 6 0 2 0 (by decide)).1,
   C3_priority1_never_decrements_carve_out.2.2 exDiary exPool 0 0 true 0 [true] 0
     false false 0 exTraceLow exDiaLow (by decide)⟩

/-- C4 is false as stated: bookings is stored as uint8, so a book_slot
call at a cell already holding 255 bookings wraps the count to 0 instead
of incrementing it to 256, and the integer bookkeeping identity breaks.
The state below satisfies the identity (255 bookings at the cell,
available fallen from 300 to 45) and one further RepeatBooker.book_slot
call violates it: the call does not increment bookings by one. -/
theorem C4_counterexample :
    ZInv ⟨[[300]], [[0]], [[0]]⟩ ⟨[[45]], [[0]], [[255]]⟩ ∧
    getN (RepeatBooker.book_slot ⟨[[45]], [[0]], [[255]]⟩ 0 0).bookings 0 0 = 0 ∧
    ¬ ZInv ⟨[[300]], [[0]], [[0]]⟩ (RepeatBooker.book_slot ⟨[[45]], [[0]], [[255]]⟩ 0 0) := by
  refine ⟨?_, by decide, fun hz => absurd (hz 0 0) (by decide)⟩
  intro d c
  rcases d with _ | d
  · rcases c with _ | c
    · decide
    · simp [ZInv, getN, getI]
  · simp [ZInv, getN, getI]

/-- C4 amended: every book_slot call decrements exactly one of available
or carve_out by one at the booked cell and increments bookings there
modulo 256 (bookings is stored uint8), so the claimed integer identity
is preserved by every call whose cell holds fewer than 255 bookings; it
holds modulo 256 unconditionally. -/
theorem C4_bookkeeping_identity :
    (∀ dia t c, inRange dia.bookings t c →
      getN (LowPriorityPooledBooker.book_slot dia t c).bookings t c =
        (getN dia.bookings t c + 1) % 256 ∧
      getN (RepeatBooker.book_slot dia t c).bookings t c =
        (getN dia.bookings t c + 1) % 256 ∧
      getN (HighPriorityPooledBooker.book_slot dia t c).bookings t c =
        (getN dia.bookings t c + 1) % 256) ∧
    (∀ init dia t c,
      inRange dia.available t c → inRange dia.bookings t c →
      getN dia.bookings t c < 255 → ZInv init dia →
      ZInv init (LowPriorityPooledBooker.book_slot dia t c) ∧
      ZInv init (RepeatBooker.book_slot dia t c)) ∧
    (∀ init dia t c,
      inRange dia.available t c → inRange dia.bookings t c → inRange dia.carve_out t c →
      getN dia.bookings t c < 255 → ZInv init dia →
      ZInv init (HighPriorityPooledBooker.book_slot dia t c)) := by
  refine ⟨?_, ?_, ?_⟩
  · intro dia t c hB
    exact ⟨low_book_bookings_at dia t c hB, low_book_bookings_at dia t c hB,
      high_book_bookings_at dia t c hB⟩
  · intro init dia t c hA hB hlt hz
    have key : ZInv init (LowPriorityPooledBooker.book_slot dia t c) := by
      intro d c2
      by_cases hcell : d = t ∧ c2 = c
      · obtain ⟨rfl, rfl⟩ := hcell
        rw [low_book_bookings_at dia d c2 hB, low_book_avail_at dia d c2 hA, low_book_carve,
          Nat.mod_eq_of_lt (by omega)]
        have hzc := hz d c2
        omega
      · rw [low_book_bookings_ne dia t c d c2 hcell, low_book_avail_ne dia t c d c2 hcell,
          low_book_carve]
        exact hz d c2
    exact ⟨key, key⟩
  · intro init dia t c hA hB hC hlt hz
    intro d c2
    by_cases hcell : d = t ∧ c2 = c
    · obtain ⟨rfl, rfl⟩ := hcell
      rw [high_book_bookings_at dia d c2 hB, Nat.mod_eq_of_lt (by omega)]
      have hzc := hz d c2
      by_cases hp : 0 < getN dia.carve_out d c2
      · obtain ⟨hc1, hc2⟩ := high_book_carve_pos dia d c2 hp hC
        rw [hc1, hc2]
        omega
      · obtain ⟨hc1, hc2⟩ := high_book_carve_zero dia d c2 (by omega) hA
        rw [hc1, hc2]
        omega
    · rw [high_book_bookings_ne dia t c d c2 hcell, high_book_avail_ne dia t c d c2 hcell,
        high_book_carve_ne dia t c d c2 hcell]
      exact hz d c2

/-- Witness for C4 at a concrete booking. -/
theorem C4_witness :
    ZInv exDiary (LowPriorityPooledBooker.book_slot exDiary 6 0) ∧
    ZInv exDiary (RepeatBooker.book_slot exDiary 6 0) :=
  C4_bookkeeping_identity.2.1 exDiary exDiary 6 0 (by decide) (by decide) (by decide)
    (fun d c => by
      rw [show exDiary.bookings = zerosN 10 1 from rfl, zerosN_getN]
      push_cast
      ring)

/-- C5 is false as stated for the mask-free call used by the pathway:
with a negative available entry present (reachable through
RepeatBooker.book_slot on an exhausted diary), find_slot picks day 1,
where one eligible clinician has positive combined capacity but the
eligible row sum is negative, rather than day 2, the earliest day whose
combined row sum is positive. -/
theorem C5_counterexample :
    HighPriorityPooledBooker.find_slot exDiaryNeg exPool2 0 0 none 0 = some (1, 0) ∧
    ((bookerOpts exPool2 0 none).map (fun j => combinedAt exDiaryNeg 1 j)).sum < 0 ∧
    0 < ((bookerOpts exPool2 0 none).map (fun j => combinedAt exDiaryNeg 2 j)).sum := by
  decide

/-- C5 amended: as invoked from the pathway (without a clinician mask),
HighPriorityPooledBooker.find_slot returns the earliest day of the
forward window on which some eligible clinician has positive
available + carve_out (equivalent to the positive row sum rule whenever
no entry is negative), together with such a clinician; and book_slot
decrements carve_out at the booked cell when it is positive, otherwise
available, and increments bookings modulo 256. -/
theorem C5_high_priority_policy :
    (∀ dia pool t hc draw d c,
      HighPriorityPooledBooker.find_slot dia pool t hc none draw = some (d, c) →
      t + 1 ≤ d ∧
      highGoodDay dia (bookerOpts pool hc none) none d = true ∧
      (∀ d2, t + 1 ≤ d2 → d2 < d →
        highGoodDay dia (bookerOpts pool hc none) none d2 = false) ∧
      c ∈ bookerOpts pool hc none ∧ 0 < combinedAt dia d c) ∧
    (∀ dia t c, 0 < getN dia.carve_out t c → inRange dia.carve_out t c →
      getN (HighPriorityPooledBooker.book_slot dia t c).carve_out t c =
        getN dia.carve_out t c - 1 ∧
      (HighPriorityPooledBooker.book_slot dia t c).available = dia.available) ∧
    (∀ dia t c, getN dia.carve_out t c = 0 → inRange dia.available t c →
      (HighPriorityPooledBooker.book_slot dia t c).carve_out = dia.carve_out ∧
      getI (HighPriorityPooledBooker.book_slot dia t c).available t c =
        getI dia.available t c - 1) ∧
    (∀ dia t c, inRange dia.bookings t c →
      getN (HighPriorityPooledBooker.book_slot dia t c).bookings t c =
        (getN dia.bookings t c + 1) % 256) := by
  exact ⟨fun dia pool t hc draw d c h => high_find_some_spec dia pool t hc draw d c h,
    fun dia t c hp hr => high_book_carve_pos dia t c hp hr,
    fun dia t c h0 hr => high_book_carve_zero dia t c h0 hr,
    fun dia t c hr => high_book_bookings_at dia t c hr⟩

/-- Witness for C5 at concrete states. -/
theorem C5_witness :
    ((0 : Nat) + 1 ≤ 1 ∧
      highGoodDay exDiary2 (bookerOpts exPool2 0 none) none 1 = true ∧
      (∀ d2, 0 + 1 ≤ d2 → d2 < 1 →
        highGoodDay exDiary2 (bookerOpts exPool2 0 none) none d2 = false) ∧
      0 ∈ bookerOpts exPool2 0 none ∧ 0 < combinedAt exDiary2 1 0) ∧
    (getN (HighPriorityPooledBooker.book_slot ⟨[[5]], [[2]], [[0]]⟩ 0 0).carve_out 0 0 =
      getN (⟨[[5]], [[2]], [[0]]⟩ : Diary).carve_out 0 0 - 1 ∧
      (HighPriorityPooledBooker.book_slot ⟨[[5]], [[2]], [[0]]⟩ 0 0).available =
        (⟨[[5]], [[2]], [[0]]⟩ : Diary).available) :=
  ⟨C5_high_priority_policy.1 exDiary2 exPool2 0 0 0 1 0 (by decide),
   C5_high_priority_policy.2.1 ⟨[[5]], [[2]], [[0]]⟩ 0 0 (by decide) (by decide)⟩

/-- C6 is the intended behaviour but the code is silent:
RepeatBooker.find_slot on a diary with no available slot anywhere in the
forward window returns the window start day t + min_wait with zero
availability instead of flagging a CapacityExhausted condition, because
np.argmax over an all-false comparison returns 0; the pooled bookers
raise an unstructured IndexError (modelled by none) rather than an error
carrying day, clinic and booker kind. -/
theorem C6_exhaustion_is_silent :
    RepeatBooker.find_slot exDiaryEmpty 6 0 0 = (6, 0) ∧
    getI exDiaryEmpty.available 6 0 = 0 ∧
    LowPriorityPooledBooker.find_slot exDiaryEmpty exPool 7 0 0 (some [true]) 0 = none := by
  decide

/-- C7 is false as stated: retention in the results collection is
decided at scheduling time from env.now, the referral day, not from the
attended time. A patient referred on day 5 with warm_up_period 5 attends
its assessment after the warm-up (at day 6) yet is not retained. -/
theorem C7_counterexample :
    retainPatient 5 5 = false ∧
    (PatientReferral.executeHigh exDiary exPool 5 0 0 false false 0).map
      (fun pr => pr.1.any (fun e =>
        e.ev == EventName.have_appointment && decide (5 < e.time))) = some true := by
  decide

/-- C7 amended: a pathway is retained in the results collection exactly
when its referral day exceeds warm_up_period; every appointment of a
pathway is attended strictly after the referral day, so pathways
referred on or before warm_up_period are discarded even when they attend
after it; of the retained referrals, exactly those with a recorded
waiting time contribute to the summariser. -/
theorem C7_retention_uses_referral_time :
    (∀ t w, retainPatient t w = decide (w < t)) ∧
    (∀ dia pool t0 home draw fu it n tr dia2,
      PatientReferral.executeHigh dia pool t0 home draw fu it n = some (tr, dia2) →
      ∀ e ∈ tr, e.ev = EventName.have_appointment → t0 < e.time) ∧
    (∀ dia pool t0 home hr k mask draw fu it n tr dia2,
      PatientReferral.executeLow dia pool t0 home hr k mask draw fu it n = some (tr, dia2) →
      ∀ e ∈ tr, e.ev = EventName.have_appointment → t0 < e.time) ∧
    (∀ rs : List (Nat × Option Nat),
      (process_run_results rs).1 = rs.filterMap (fun pr => pr.2)) := by
  refine ⟨fun t w => rfl, ?_, ?_, fun rs => rfl⟩
  · intro dia pool t0 home draw fu it n tr dia2 h
    exact fun e he hev =>
      ((executeHigh_trace_facts dia pool t0 home draw fu it n tr dia2 h).2 e he hev).2
  · intro dia pool t0 home hr k mask draw fu it n tr dia2 h
    unfold PatientReferral.executeLow at h
    by_cases hhr : hr = true
    · rw [if_pos hhr] at h
      exact fun e he hev =>
        ((executeLowFrom_trace_facts dia pool t0 home (LOW_PRIORITY_MIN_WAIT - 1) t0 (t0 + 1)
          mask draw fu it n tr dia2 (by omega) (by omega) h).2.1 e he hev).2
    · rw [if_neg hhr] at h
      exact fun e he hev =>
        ((executeLowFrom_trace_facts dia pool t0 home LOW_PRIORITY_MIN_WAIT (t0 + 2 + k)
          (t0 + 2 + k) mask draw fu it n tr dia2 (by omega) (by omega) h).2.1 e he hev).2

/-- Witness for C7 at a concrete pathway and event. -/
theorem C7_witness :
    0 < (exTraceHigh.getD 3
      { pathway := 0, ev := EventName.arrival, home_clinic := 0, time := 0 }).time :=
  C7_retention_uses_referral_time.2.1 exDiary exPool 0 0 0 false false 0
    exTraceHigh exDiaHigh (by decide) _ (by decide) (by decide)

/-- C8 is false as stated: the construction loops append the whole
5-row weekly template once per iteration of range(int(run_length*1.5)),
on top of the initial copy, so each diary matrix has
5 * (floor(1.5 * run_length) + 1) day rows, not ceil(1.5 * run_length).
For run_length 2 the matrices have 20 rows while the claimed length is
ceil(3) = 3, and the template is stacked 4 times rather than
ceil(1.5 * 2 / 5) = 1 time. -/
theorem C8_counterexample :
    (Scenario.create_carve_out 2 (List.replicate 5 [1]) (3 / 20)).length = 20 ∧
    (Scenario.create_slots 2 (List.replicate 5 [1]) (3 / 20)).length = 20 ∧
    (Scenario.create_bookings 2 1).length = 20 ∧
    ¬ (Scenario.create_carve_out 2 (List.replicate 5 [1]) (3 / 20)).length = (3 * 2 + 1) / 2 := by
  have h1 : (Scenario.create_carve_out 2 (List.replicate 5 [1]) (3 / 20)).length = 20 := by
    unfold Scenario.create_carve_out
    rw [repeatTemplate_length]
    simp [carveTemplate, weeklyRepeatCount]
  have h2 : (Scenario.create_slots 2 (List.replicate 5 [1]) (3 / 20)).length = 20 := by
    unfold Scenario.create_slots
    rw [repeatTemplate_length]
    simp [openTemplate, carveTemplate, weeklyRepeatCount]
  have h3 : (Scenario.create_bookings 2 1).length = 20 := by
    unfold Scenario.create_bookings
    rw [repeatTemplate_length]
    simp [weeklyRepeatCount]
  exact ⟨h1, h2, h3, by omega⟩

/-- C8 amended: for a 5-row weekly template, each of the three diary
matrices consists of floor(3 * run_length / 2) + 1 stacked copies of its
weekly template, hence has 5 * (floor(3 * run_length / 2) + 1) day rows;
day d carries row d % 5 of the template, where the carve-out template is
round(weekly * prop_carve_out) cast to uint8 and the available template
is the int64 difference weekly - carve_out; bookings starts as zeros of
the same shape. -/
theorem C8_diary_construction :
    ∀ rl (weekly : List (List Nat)) (prop : ℚ) (clinics : Nat),
      weekly.length = 5 →
      (Scenario.create_carve_out rl weekly prop).length = 5 * weeklyRepeatCount rl ∧
      (Scenario.create_slots rl weekly prop).length = 5 * weeklyRepeatCount rl ∧
      (Scenario.create_bookings rl clinics).length = 5 * weeklyRepeatCount rl ∧
      (∀ d, d < 5 * weeklyRepeatCount rl →
        (Scenario.create_carve_out rl weekly prop).getD d [] =
          (carveTemplate weekly prop).getD (d % 5) [] ∧
        (Scenario.create_slots rl weekly prop).getD d [] =
          (openTemplate weekly prop).getD (d % 5) []) ∧
      (∀ d c, getN (Scenario.create_bookings rl clinics) d c = 0) := by
  intro rl weekly prop clinics h5
  have hc : (carveTemplate weekly prop).length = 5 := by
    simp [carveTemplate, h5]
  have ho : (openTemplate weekly prop).length = 5 := by
    simp [openTemplate, List.length_zipWith, hc, h5]
  refine ⟨?_, ?_, ?_, ?_, fun d c => create_bookings_getN rl clinics d c⟩
  · unfold Scenario.create_carve_out
    rw [repeatTemplate_length, hc, Nat.mul_comm]
  · unfold Scenario.create_slots
    rw [repeatTemplate_length, ho, Nat.mul_comm]
  · unfold Scenario.create_bookings
    rw [repeatTemplate_length]
    simp [Nat.mul_comm]
  · intro d hd
    exact ⟨repeatTemplate_getD (carveTemplate weekly prop) hc (weeklyRepeatCount rl) d hd,
      repeatTemplate_getD (openTemplate weekly prop) ho (weeklyRepeatCount rl) d hd⟩

/-- Witness for C8 at a concrete configuration. -/
theorem C8_witness :
    (Scenario.create_carve_out 2 (List.replicate 5 [1]) (3 / 20)).length =
      5 * weeklyRepeatCount 2 :=
  (C8_diary_construction 2 (List.replicate 5 [1]) (3 / 20) 1 (by decide)).1

/-- C9 is false as stated: the source sets HIGH_PRIORITY_MIN_WAIT to 2,
not 1, and the HighPriorityPooledBooker constructor hard-codes
min_wait = 1 without referencing that constant. -/
theorem C9_counterexample :
    HIGH_PRIORITY_MIN_WAIT ≠ 1 ∧
    HighPriorityPooledBooker.min_wait ≠ HIGH_PRIORITY_MIN_WAIT := by
  decide

/-- C9 amended: the program defines LOW_PRIORITY_MIN_WAIT = 7,
HIGH_PRIORITY_MIN_WAIT = 2 (unused by the bookers, whose high priority
min_wait is the literal 1), LOW_INTENSITY_FOLLOW_UP_TARGET_INTERVAL =
14, HIGH_INTENSITY_FOLLOW_UP_TARGET_INTERVAL = 7, TARGET_HIGH = 5,
TARGET_LOW = 20 and BOOKING_TIME_THRESHOLD = 4 * 7 = 28. -/
theorem C9_constants :
    LOW_PRIORITY_MIN_WAIT = 7 ∧ HIGH_PRIORITY_MIN_WAIT = 2 ∧
    HighPriorityPooledBooker.min_wait = 1 ∧
    LOW_INTENSITY_FOLLOW_UP_TARGET_INTERVAL = 14 ∧
    HIGH_INTENSITY_FOLLOW_UP_TARGET_INTERVAL = 7 ∧
    TARGET_HIGH = 5 ∧ TARGET_LOW = 20 ∧ BOOKING_TIME_THRESHOLD = 28 ∧
    ANNUAL_DEMAND = 1500 := by
  decide

/-- C10 is false as stated: only carve_out and bookings are uint8; the
available matrix is int64 because weekly_slots - carve_out promotes, so
booking a cell whose available entry is 0 drives it to -1, not 255. The
degenerate booking day itself is real: RepeatBooker.find_slot returns
the window start on an exhausted diary, and book_slot there yields a
negative available entry. -/
theorem C10_counterexample :
    getI exDiaryEmpty.available 6 0 = 0 ∧
    RepeatBooker.find_slot exDiaryEmpty 6 0 0 = (6, 0) ∧
    getI (RepeatBooker.book_slot exDiaryEmpty 6 0).available 6 0 = -1 ∧
    getI (RepeatBooker.book_slot exDiaryEmpty 6 0).available 6 0 ≠ 255 := by
  decide

/-- C10 amended: carve_out and bookings are uint8 (every bookings
increment is taken modulo 256), while available is int64: a
RepeatBooker.book_slot call on a cell whose available entry is 0 sets it
to -1, silently recording negative capacity, and this is reachable
because RepeatBooker.find_slot returns exactly t + min_wait whenever no
day of its forward window has a positive entry. -/
theorem C10_available_goes_negative :
    (∀ dia t c, inRange dia.available t c → getI dia.available t c = 0 →
      getI (RepeatBooker.book_slot dia t c).available t c = -1) ∧
    (∀ dia t c, inRange dia.bookings t c →
      getN (RepeatBooker.book_slot dia t c).bookings t c =
        (getN dia.bookings t c + 1) % 256) ∧
    (∀ dia t c, (RepeatBooker.book_slot dia t c).carve_out = dia.carve_out) ∧
    (∀ dia mw t c,
      (∀ d, t + mw ≤ d → d < dia.available.length → getI dia.available d c ≤ 0) →
      RepeatBooker.find_slot dia mw t c = (t + mw, c)) := by
  refine ⟨?_, ?_, fun dia t c => rfl, ?_⟩
  · intro dia t c hr h0
    rw [show RepeatBooker.book_slot dia t c = LowPriorityPooledBooker.book_slot dia t c
        from rfl, low_book_avail_at dia t c hr, h0]
    decide
  · intro dia t c hr
    exact low_book_bookings_at dia t c hr
  · intro dia mw t c hall
    unfold RepeatBooker.find_slot
    rw [findFirst_of_forall_false (fun i hi => by
      simp only [decide_eq_false_iff_not]
      have := hall (t + mw + i) (by omega) (by omega)
      omega)]
    simp only [Option.getD_none, Prod.mk.injEq]
    exact ⟨by omega, trivial⟩

/-- Witness for C10 at a concrete exhausted diary. -/
theorem C10_witness :
    getI (RepeatBooker.book_slot exDiaryEmpty 6 0).available 6 0 = -1 ∧
    RepeatBooker.find_slot exDiaryEmpty 6 0 0 = (0 + 6, 0) :=
  ⟨C10_available_goes_negative.1 exDiaryEmpty 6 0 (by decide) (by decide),
   C10_available_goes_negative.2.2.2 exDiaryEmpty 6 0 0
     (fun d h1 h2 => by
       have h3 : d < 10 := by simpa [exDiaryEmpty] using h2
       have h4 : 6 ≤ d := by omega
       interval_cases d <;> decide)⟩

end SimVis
